import Mathlib

/-!
Verification of the claudeCount agent-monitoring core: a shallow embedding of
the attention classifier, session correlator, log tailer, registry tick,
bounded log buffer, stop/cancel cleanup, prompt-injection IPC validation
and (modelled from the spec) the watchdog and tag operations, together with
theorems settling the frozen claims about them.
-/

namespace ClaudeCount

/-- Coarse agent lifecycle, the `status` field of an agent
(`'active' | 'terminated'` in processMonitor.js). -/
inductive Status where
  | active
  | terminated
deriving DecidableEq, Repr

/-- One element of a log record's `message.content` array.  The classifier
only reads the block's `type` tag and its optional tool `name`
(processMonitor.js `getToolUseBlocks`). -/
structure ContentBlock where
  btype : String
  name : Option String
deriving DecidableEq, Repr

/-- A parsed JSONL log record as far as the classifier inspects it: the
optional `type` tag, the optional `timestamp` (already parsed to epoch
milliseconds), and the optional `message.content` array (`none` models a
missing or non-array `content`). -/
structure LogRecord where
  rtype : Option String
  timestamp : Option Int
  content : Option (List ContentBlock)
deriving DecidableEq, Repr

/-- The slice of an agent the attention classifier reads
(processMonitor.js `deriveAttentionState`). -/
structure AgentSnap where
  status : Status
  logLines : List LogRecord
  sessionId : Option String
  lastSeen : Int
deriving DecidableEq, Repr

/-- Embeds `getToolUseBlocks` (processMonitor.js): filters the record's
`message.content` array for blocks whose `type` is `tool_use`; a missing or
non-array `content` yields `[]`. -/
def getToolUseBlocks (r : LogRecord) : List ContentBlock :=
  (r.content.getD []).filter (fun b => b.btype == "tool_use")

/-- Embeds `deriveAttentionState` (processMonitor.js lines 236-267): the
attention state of an agent at time `now` (epoch ms), derived from its last
buffered log record. -/
def deriveAttentionState (now : Int) (agent : AgentSnap) : String :=
  if agent.status = Status.terminated then "ended"
  else
    match agent.logLines.getLast? with
    | none => if agent.sessionId.isSome then "running" else "unknown"
    | some lastLine =>
      let lastLineTime := lastLine.timestamp.getD agent.lastSeen
      let silenceMs := now - lastLineTime
      if lastLine.rtype == some "assistant" && decide (silenceMs > 5000) then
        let toolUses := getToolUseBlocks lastLine
        if toolUses.any (fun t => t.name == some "AskUserQuestion") then "waiting_input"
        else if toolUses.length > 0 then "waiting_permission"
        else "waiting_input"
      else if silenceMs > 60000 then "stalled"
      else "running"

/-- A session descriptor as produced by `discoverSessions` (sessionWatcher.js),
extended with `tail`, the outcome of `readLastJsonlLine` on its file: `none`
models an unreadable, empty or unparseable-last-line file, `some r` the parsed
last non-empty JSON line. -/
structure SessionC where
  sessionId : String
  lastModified : Int
  tail : Option LogRecord
deriving DecidableEq, Repr

/-- The slice of an agent `correlateAgentSession` reads: its OS start time in
epoch ms, if recorded. -/
structure AgentStart where
  startTime : Option Int
deriving DecidableEq, Repr

/-- Embeds the acceptance test in `correlateAgentSession`'s candidate loop
(sessionWatcher.js lines 85-104): the candidate's last JSON line exists and
its effective time (the `timestamp` field if present, else the file's
`lastModified`) is within 5 minutes before `now`. -/
def candidateAccepted (now : Int) (c : SessionC) : Bool :=
  match c.tail with
  | none => false
  | some lastLine =>
    let lineTime := lastLine.timestamp.getD c.lastModified
    decide (now - lineTime < 300000)

/-- Embeds the candidate filter of `correlateAgentSession` (sessionWatcher.js
lines 75-80): sessions modified within 30s of the agent's start time or
within the last 5 minutes. -/
def correlationCandidates (now st : Int) (sessions : List SessionC) : List SessionC :=
  sessions.filter (fun s =>
    decide ((s.lastModified - st).natAbs < 30000) || decide (now - s.lastModified < 300000))

/-- Embeds `correlateAgentSession` (sessionWatcher.js lines 68-108): no start
time yields none; the first accepted candidate (input order,
most-recently-modified first since `discoverSessions` pre-sorts) is returned,
else the first candidate as fallback. -/
def correlateAgentSession (now : Int) (agent : AgentStart) (sessions : List SessionC) :
    Option SessionC :=
  match agent.startTime with
  | none => none
  | some st =>
    let candidates := correlationCandidates now st sessions
    if candidates.isEmpty then none
    else
      match candidates.find? (candidateAccepted now) with
      | some c => some c
      | none => candidates.head?

/-- Follows the claim's words (for comparison with `correlateAgentSession`):
a candidate is accepted only when its last well-formed JSON line has a
`timestamp` field within 5 minutes of now; unreadable or unparseable files
are skipped. -/
def claimAccepted (now : Int) (c : SessionC) : Bool :=
  match c.tail with
  | none => false
  | some lastLine =>
    match lastLine.timestamp with
    | none => false
    | some t => decide ((now - t).natAbs < 300000)

/-- Follows the claim's words (for comparison with `correlateAgentSession`):
scan candidates in most-recently-modified-first order, return the first whose
tail has a fresh `timestamp` field, and only when none qualifies fall back to
the single most-recently-modified candidate. -/
def correlateClaim (now : Int) (agent : AgentStart) (sessions : List SessionC) :
    Option SessionC :=
  match agent.startTime with
  | none => none
  | some st =>
    let candidates := correlationCandidates now st sessions
    if candidates.isEmpty then none
    else
      match candidates.find? (claimAccepted now) with
      | some c => some c
      | none => candidates.head?

/-- Embeds the change handler of `watchSession` (sessionWatcher.js lines
163-200) at the byte level.  The file content is a list of bytes (chars);
`lowWater` is the tailer's recorded file size.  A change event stats the file:
if its size is at most the low-water mark nothing is read and the mark is
kept; otherwise exactly the bytes from the mark to the end are read and the
mark becomes the new size.  Returns the new mark and the bytes read. -/
def handleChange (lowWater : Nat) (content : List Char) : Nat × Option (List Char) :=
  if content.length ≤ lowWater then (lowWater, none)
  else (content.length, some (content.drop lowWater))

/-- The configured log-buffer capacity `MAX_LOG_LINES_PER_SESSION`
(config.js line 16). -/
def MAX_LOG_LINES_PER_SESSION : Nat := 1000

/-- The buffer update performed for each record delivered by the tailer
callback in `_correlateAndWatch` (processMonitor.js lines 480-496),
generalized over the capacity: push the record, then if the length exceeds
the capacity keep only the last `cap` records (`slice(-cap)`). -/
def appendLogCap (cap : Nat) (buf : List LogRecord) (line : LogRecord) : List LogRecord :=
  let b := buf ++ [line]
  if b.length > cap then b.drop (b.length - cap) else b

/-- The buffer update at the configured capacity, as the source performs it. -/
def appendLog (buf : List LogRecord) (line : LogRecord) : List LogRecord :=
  appendLogCap MAX_LOG_LINES_PER_SESSION buf line

/-- A registry entry as the poll tick diffs it: the fields `_tick` touches. -/
structure AgentR where
  pid : Nat
  status : Status
  lastSeen : Int
  terminatedAt : Option Int
deriving DecidableEq, Repr

/-- A freshly scanned descriptor inserted into the registry by `_tick`
(status `active`, detected now, not terminated). -/
def newAgent (pid : Nat) (now : Int) : AgentR :=
  { pid := pid, status := Status.active, lastSeen := now, terminatedAt := none }

/-- One iteration of the added/refresh loop of `_tick` (processMonitor.js
lines 414-432) for a single scanned pid: a pid not in the registry is
inserted as a new active agent; a pid already present has `lastSeen`
refreshed and `status` forced to `active`. -/
def tickStep (now : Int) (r : List AgentR) (pid : Nat) : List AgentR :=
  if r.any (fun a => a.pid == pid) then
    r.map (fun a =>
      if a.pid == pid then { a with lastSeen := now, status := Status.active } else a)
  else r ++ [newAgent pid now]

/-- Embeds the added/refresh loop of `_tick` over all scanned pids.  The
registry is the JS `Map` in insertion order. -/
def tickPhase1 (now : Int) (reg : List AgentR) (scanned : List Nat) : List AgentR :=
  scanned.foldl (tickStep now) reg

/-- The per-agent body of the removed loop of `_tick` (processMonitor.js
lines 434-450): an agent already terminated is skipped; one still present in
the scan is kept; otherwise it is marked terminated with `terminatedAt`
stamped. -/
def markRemoved (now : Int) (scanned : List Nat) (a : AgentR) : AgentR :=
  if a.status = Status.terminated then a
  else if scanned.contains a.pid then a
  else { a with status := Status.terminated, terminatedAt := some now }

/-- Embeds the removed loop of `_tick` over the whole registry. -/
def tickPhase2 (now : Int) (reg : List AgentR) (scanned : List Nat) : List AgentR :=
  reg.map (markRemoved now scanned)

/-- One successful poll tick's registry reconciliation (`_tick`,
processMonitor.js lines 406-462): the added/refresh loop followed by the
removed loop, over the pids reported by the scanner. -/
def tickUpdate (now : Int) (reg : List AgentR) (scanned : List Nat) : List AgentR :=
  tickPhase2 now (tickPhase1 now reg scanned) scanned

/-- Reads the registry entry for a pid, as `this._agents.get(pid)` does. -/
def regGet (reg : List AgentR) (pid : Nat) : Option AgentR :=
  reg.find? (fun a => a.pid == pid)

/-- The Monitor's stop-relevant state: lifecycle flag, the two recurring
timers, and the watcher map (represented by the pids holding a cleanup). -/
structure StopState where
  running : Bool
  pollTimer : Bool
  pruneTimer : Bool
  watchers : List Nat
deriving DecidableEq, Repr

/-- Embeds `stop()` (processMonitor.js lines 347-368): when already stopped
it returns immediately with no effects; otherwise it clears the running flag,
cancels both timers, invokes every watcher's cleanup and clears the watcher
map.  The second component lists the pids whose cleanup was invoked by this
call (the call's cleanup effects). -/
def stop (s : StopState) : StopState × List Nat :=
  if !s.running then (s, [])
  else ({ running := false, pollTimer := false, pruneTimer := false, watchers := [] },
        s.watchers)

/-- The underlying chokidar watcher held by a `watchSession` cancellation
handle, reduced to its closed flag. -/
structure WatcherH where
  closed : Bool
deriving DecidableEq, Repr

/-- Embeds one invocation of the cancellation handle returned by
`watchSession` (sessionWatcher.js lines 205-208): it calls `watcher.close()`,
which marks the watcher closed and releases the OS watch resource; closing an
already-closed watcher observes the closed flag and changes nothing.  The
Bool reports whether this call released the resource. -/
def cancelHandle (w : WatcherH) : WatcherH × Bool :=
  if w.closed then (w, false)
  else ({ closed := true }, true)

/-- The configured watchdog threshold `WATCHDOG_MAX_FAILURES`
(config.js line 22). -/
def WATCHDOG_MAX_FAILURES : Nat := 5

/-- The Monitor state the watchdog drives: lifecycle flag, consecutive-failure
counter, and whether the recurring-tick timer is scheduled. -/
structure WatchdogState where
  running : Bool
  failures : Nat
  pollTimerActive : Bool
deriving DecidableEq, Repr

/-- Notifications and timer effects the watchdog produces. -/
inductive MonitorEvent where
  | degraded (failures : Nat)
  | pollTimerCancelled
  | pollTimerRescheduled
  | immediateTick
deriving DecidableEq, Repr

/-- Modelled from the spec: the failure-counting watchdog around the poll
tick is declared by config.js (`WATCHDOG_MAX_FAILURES`,
`WATCHDOG_RESTART_DELAY_MS`) and consumed by main.js's `monitor-degraded`
listener, but its implementation is missing from the monitor source; this
follows spec section 4.4 "Failure handling / watchdog".  `tickRaised` tells
whether the tick body raised an exception; the guard catches it (it always
returns, never propagates), incrementing the consecutive-failure counter on
failure and resetting it on success; when the counter reaches the threshold
it emits the degraded notification and cancels the recurring-tick timer,
beginning a loop restart. -/
def tickGuard (s : WatchdogState) (tickRaised : Bool) : WatchdogState × List MonitorEvent :=
  if tickRaised then
    let f := s.failures + 1
    if WATCHDOG_MAX_FAILURES ≤ f then
      ({ s with failures := f, pollTimerActive := false },
       [MonitorEvent.degraded f, MonitorEvent.pollTimerCancelled])
    else ({ s with failures := f }, [])
  else ({ s with failures := 0 }, [])

/-- Modelled from the spec: the continuation of the loop restart after the
configured delay (spec section 4.4) — if the Monitor is still in running
state, reset the failure counter and reschedule recurring ticks plus one
immediate tick; otherwise do nothing. -/
def afterRestartDelay (s : WatchdogState) : WatchdogState × List MonitorEvent :=
  if s.running then
    ({ s with failures := 0, pollTimerActive := true },
     [MonitorEvent.pollTimerRescheduled, MonitorEvent.immediateTick])
  else (s, [])

/-- The Monitor state the tag operations touch: the agent registry and the
per-pid tag map, two independent structures. -/
structure TagState where
  agents : List AgentR
  tags : List (Nat × List String)
deriving DecidableEq, Repr

/-- Looks a pid up in the tag map. -/
def tagsGet (m : List (Nat × List String)) (pid : Nat) : Option (List String) :=
  (m.find? (fun kv => kv.1 == pid)).map (fun kv => kv.2)

/-- Stores a pid's tag list in the tag map (JS `Map.set` semantics: replace
in place when present, append when absent). -/
def tagsSet (m : List (Nat × List String)) (pid : Nat) (v : List String) :
    List (Nat × List String) :=
  if m.any (fun kv => kv.1 == pid) then
    m.map (fun kv => if kv.1 == pid then (pid, v) else kv)
  else m ++ [(pid, v)]

/-- Modelled from the spec: the Monitor's `getAgentTags` is called by
agentBridge.js and main.js but missing from the monitor source; per spec
section 4.4 "Tag operations" it reads the per-pid set (empty when absent). -/
def getAgentTags (s : TagState) (pid : Nat) : List String :=
  (tagsGet s.tags pid).getD []

/-- Modelled from the spec: the Monitor's `setAgentTags` (called by
agentBridge.js and main.js, missing from the monitor source) replaces the
per-pid set, touching only the tag map. -/
def setAgentTags (s : TagState) (pid : Nat) (v : List String) : TagState :=
  { s with tags := tagsSet s.tags pid v }

/-- Modelled from the spec: the Monitor's `addAgentTag` (called by
agentBridge.js and main.js, missing from the monitor source) lazily creates
the per-pid set when absent — an unknown pid is not an error — and inserts
the tag. -/
def addAgentTag (s : TagState) (pid : Nat) (tag : String) : TagState :=
  let cur := (tagsGet s.tags pid).getD []
  { s with tags := tagsSet s.tags pid (if cur.contains tag then cur else cur ++ [tag]) }

/-- Modelled from the spec: the Monitor's `removeAgentTag` (called by
agentBridge.js and main.js, missing from the monitor source) lazily creates
the per-pid set when absent — an unknown pid is not an error — and removes
the tag from it. -/
def removeAgentTag (s : TagState) (pid : Nat) (tag : String) : TagState :=
  let cur := (tagsGet s.tags pid).getD []
  { s with tags := tagsSet s.tags pid (cur.filter (fun t => t != tag)) }

/-- Decides whether `needle` occurs as a contiguous substring of the second
list, as JS `String.prototype.includes` does. -/
def hasSubstr (needle : List Char) : List Char → Bool
  | [] => needle.isEmpty
  | c :: rest => needle.isPrefixOf (c :: rest) || hasSubstr needle rest

/-- JS `hay.includes(needle)` over strings. -/
def strHas (needle hay : String) : Bool :=
  hasSubstr needle.toList hay.toList

/-- JS `String.prototype.toLowerCase` at the character level. -/
def jsLower (s : String) : List Char :=
  s.toList.map Char.toLower

/-- JS `String.prototype.trim`: strips leading and trailing whitespace. -/
def jsTrim (s : String) : List Char :=
  ((s.toList.dropWhile Char.isWhitespace).reverse.dropWhile Char.isWhitespace).reverse

/-- The configured prompt-length bound `MAX_PROMPT_LENGTH`
(config.js line 19). -/
def MAX_PROMPT_LENGTH : Nat := 10000

/-- The `text` argument as it crosses the IPC boundary: absent or falsy
(`undefined`, `null`, `0`, …), a truthy non-string value, or a string. -/
inductive JsText where
  | missing
  | nonString
  | str (s : String)
deriving DecidableEq, Repr

/-- The fields of a registry agent that the `agent:send-prompt` handler
reads. -/
structure AgentInfo where
  name : Option String
  status : Status
deriving DecidableEq, Repr

/-- The handler's outcome: a result object with `ok:false` and an error
string, or the trimmed text handed to the injector (whose own failures the
handler also catches into an `ok:false` result). -/
inductive PromptResult where
  | reject (error : String)
  | inject (text : List Char)
deriving DecidableEq, Repr

/-- Embeds the `agent:send-prompt` IPC handler (main.js lines 138-172):
validates the registry lookup, the agent's lifecycle and name, and the text,
returning `ok:false` results for invalid input, and otherwise passes the
trimmed text to the injector.  The JS falsiness of `""` makes the empty
string hit the `Text is required` branch. -/
def sendPromptHandler (agent : Option AgentInfo) (text : JsText) : PromptResult :=
  match agent with
  | none => PromptResult.reject "Agent not found"
  | some a =>
    if a.status = Status.terminated then PromptResult.reject "Agent is terminated"
    else
      let nm := jsLower (a.name.getD "")
      if hasSubstr "bash".toList nm || hasSubstr "sh.exe".toList nm then
        PromptResult.reject "Cannot inject into shell subprocess"
      else
        match text with
        | JsText.missing => PromptResult.reject "Text is required"
        | JsText.nonString => PromptResult.reject "Text is required"
        | JsText.str s =>
          if s = "" then PromptResult.reject "Text is required"
          else
            let trimmed := jsTrim s
            if trimmed.length = 0 then PromptResult.reject "Text is empty"
            else if trimmed.length > MAX_PROMPT_LENGTH then
              PromptResult.reject "Text exceeds maximum length"
            else PromptResult.inject trimmed

/-! ## Helper lemmas -/

/-- A single buffer update keeps exactly the last `cap` records of the
extended buffer. -/
theorem appendLogCap_eq_rtake (cap : Nat) (b : List LogRecord) (x : LogRecord) :
    appendLogCap cap b x = (b ++ [x]).rtake cap := by
  by_cases h : cap < (b ++ [x]).length
  · simp only [appendLogCap, List.rtake, if_pos h]
  · have h0 : (b ++ [x]).length - cap = 0 := by omega
    simp only [appendLogCap, List.rtake, if_neg h, h0, List.drop_zero]

/-- Taking the last `cap` elements twice across an append collapses. -/
theorem rtake_append_rtake (cap : Nat) (l m : List LogRecord) :
    ((l.rtake cap) ++ m).rtake cap = (l ++ m).rtake cap := by
  rw [List.rtake_eq_reverse_take_reverse ((l.rtake cap) ++ m) cap,
      List.rtake_eq_reverse_take_reverse (l ++ m) cap,
      List.rtake_eq_reverse_take_reverse l cap]
  rw [List.reverse_append, List.reverse_append, List.reverse_reverse,
      List.take_append_eq_append_take, List.take_append_eq_append_take,
      List.take_take]
  rw [inf_eq_left.mpr (Nat.sub_le _ _)]

/-- Folding the buffer update over delivered records from a buffer within
capacity yields exactly the last `cap` records of everything delivered. -/
theorem foldl_appendLogCap (cap : Nat) :
    ∀ (xs b : List LogRecord), b.length ≤ cap →
      xs.foldl (appendLogCap cap) b = (b ++ xs).rtake cap := by
  intro xs
  induction xs with
  | nil =>
    intro b hb
    simp only [List.foldl_nil, List.append_nil, List.rtake,
      Nat.sub_eq_zero_of_le hb, List.drop_zero]
  | cons x rest ih =>
    intro b hb
    have hlen : ((b ++ [x]).rtake cap).length ≤ cap := by
      simp only [List.rtake, List.length_drop]
      omega
    rw [List.foldl_cons, appendLogCap_eq_rtake, ih _ hlen, rtake_append_rtake]
    simp

/-- Splits a successful `find?` at the found element: everything before it
fails the test. -/
theorem find_first_split {α : Type} (p : α → Bool) :
    ∀ (l : List α) (a : α), l.find? p = some a →
      ∃ pre suf, l = pre ++ a :: suf ∧ ∀ b ∈ pre, p b = false := by
  intro l
  induction l with
  | nil => intro a h; simp [List.find?] at h
  | cons x xs ih =>
    intro a h
    by_cases hx : p x = true
    · rw [List.find?_cons_of_pos _ hx] at h
      cases h
      exact ⟨[], xs, rfl, by simp⟩
    · rw [List.find?_cons_of_neg _ (by simpa using hx)] at h
      obtain ⟨pre, suf, heq, hall⟩ := ih a h
      refine ⟨x :: pre, suf, by simp [heq], ?_⟩
      intro b hb
      rcases List.mem_cons.mp hb with hb | hb
      · subst hb; simpa using hx
      · exact hall b hb

/-- A record shape with none of the optional fields, used as a concrete
input. -/
def dummyRec : LogRecord :=
  { rtype := none, timestamp := none, content := none }

/-! ## C6: the tailer reads only the newly appended byte range -/

/-- C6: on a growth event the tailer reads exactly the byte range from the
low-water mark to the new size — the bytes it reads are precisely the suffix
after the already-processed prefix, so bytes before the mark are never
reprocessed — and whenever the observed size is at most the low-water mark
the event yields no read and no change to the mark (truncation is not an
error and not a reset). -/
theorem tailer_reads_only_new_bytes (lowWater : Nat) (content : List Char) :
    (lowWater < content.length →
      handleChange lowWater content = (content.length, some (content.drop lowWater)) ∧
      content.take lowWater ++ content.drop lowWater = content) ∧
    (content.length ≤ lowWater →
      handleChange lowWater content = (lowWater, none)) := by
  constructor
  · intro h
    refine ⟨?_, List.take_append_drop _ _⟩
    unfold handleChange
    rw [if_neg (by omega)]
  · intro h
    unfold handleChange
    rw [if_pos h]

/-- Witness for C6: a file watched at size 100 growing to 250 is read exactly
on the byte range from 100 to 250, and a shrink to size 50 yields no new
content and keeps the mark. -/
theorem tailer_reads_only_new_bytes_witness :
    100 < (List.replicate 250 'x').length ∧
    handleChange 100 (List.replicate 250 'x') =
      ((List.replicate 250 'x').length, some ((List.replicate 250 'x').drop 100)) ∧
    (List.replicate 50 'x').length ≤ 100 ∧
    handleChange 100 (List.replicate 50 'x') = (100, none) := by
  have h1 : 100 < (List.replicate 250 'x').length := by
    simp only [List.length_replicate]; omega
  have h2 : (List.replicate 50 'x').length ≤ 100 := by
    simp only [List.length_replicate]; omega
  exact ⟨h1, ((tailer_reads_only_new_bytes 100 (List.replicate 250 'x')).1 h1).1,
    h2, (tailer_reads_only_new_bytes 100 (List.replicate 50 'x')).2 h2⟩

/-! ## C7: the log buffer holds exactly the last C records -/

/-- C7: for every sequence of records delivered by the tailer callback, the
agent's `logLines` buffer stays within the capacity
`MAX_LOG_LINES_PER_SESSION` after every delivery (every prefix of the
deliveries), and once more than the capacity has been delivered the buffer
holds exactly the last `MAX_LOG_LINES_PER_SESSION` delivered records in
arrival order. -/
theorem log_buffer_holds_last_capacity (xs : List LogRecord) :
    (∀ pre : List LogRecord, pre <+: xs →
      (pre.foldl appendLog []).length ≤ MAX_LOG_LINES_PER_SESSION) ∧
    (MAX_LOG_LINES_PER_SESSION < xs.length →
      xs.foldl appendLog [] = xs.drop (xs.length - MAX_LOG_LINES_PER_SESSION)) := by
  have heq : appendLog = appendLogCap MAX_LOG_LINES_PER_SESSION := rfl
  constructor
  · intro pre _
    rw [heq, foldl_appendLogCap _ pre [] (by simp)]
    simp only [List.nil_append, List.rtake, List.length_drop]
    omega
  · intro _
    rw [heq, foldl_appendLogCap _ xs [] (by simp)]
    simp [List.rtake]

/-- Witness for C7: delivering 1001 records to an empty buffer leaves at most
the capacity, and the buffer is exactly the last 1000 delivered records. -/
theorem log_buffer_holds_last_capacity_witness :
    List.replicate 1001 dummyRec <+: List.replicate 1001 dummyRec ∧
    ((List.replicate 1001 dummyRec).foldl appendLog []).length ≤
      MAX_LOG_LINES_PER_SESSION ∧
    MAX_LOG_LINES_PER_SESSION < (List.replicate 1001 dummyRec).length ∧
    (List.replicate 1001 dummyRec).foldl appendLog [] =
      (List.replicate 1001 dummyRec).drop
        ((List.replicate 1001 dummyRec).length - MAX_LOG_LINES_PER_SESSION) := by
  refine ⟨List.prefix_refl _, ?_, ?_, ?_⟩
  · exact (log_buffer_holds_last_capacity _).1 _ (List.prefix_refl _)
  · simp only [List.length_replicate, MAX_LOG_LINES_PER_SESSION]; omega
  · exact (log_buffer_holds_last_capacity _).2
      (by simp only [List.length_replicate, MAX_LOG_LINES_PER_SESSION]; omega)

/-! ## C9: idempotent stop and cancellation -/

/-- C9: calling `stop()` twice in succession produces no error and no
duplicate cleanup effects — the second call observes the already-stopped
state, changes nothing and invokes no watcher cleanup — and invoking a
tailer's cancellation handle twice releases the watch resource at most once,
the second invocation observing the closed watcher and changing nothing. -/
theorem stop_and_cancel_idempotent (s : StopState) (w : WatcherH) :
    ((stop s).1.running = false ∧
     stop (stop s).1 = ((stop s).1, [])) ∧
    ((cancelHandle w).1.closed = true ∧
     cancelHandle (cancelHandle w).1 = ((cancelHandle w).1, false)) := by
  cases hs : s.running <;> cases hw : w.closed <;>
    simp [stop, cancelHandle, hs, hw]

/-! ## C10: send-prompt validation -/

/-- A live `claude.exe` agent, used as a concrete input. -/
def clInfo : AgentInfo :=
  { name := some "claude.exe", status := Status.active }

/-- C10: the `agent:send-prompt` handler is a total function (it never throws
across the IPC boundary) which returns an `ok:false` result with an
explanatory string for every invalid input — pid not in the registry,
terminated agent, process name containing `bash` or `sh.exe`
(case-insensitively, as the code lowercases the name first), missing or
non-string text, text empty after trimming, or trimmed text longer than
`MAX_PROMPT_LENGTH` — and only otherwise passes the trimmed text to the
injector. -/
theorem send_prompt_rejects_invalid (agent : Option AgentInfo) (text : JsText) :
    ((agent = none ∨
      (∃ a, agent = some a ∧ a.status = Status.terminated) ∨
      (∃ a, agent = some a ∧
        (hasSubstr "bash".toList (jsLower (a.name.getD "")) = true ∨
         hasSubstr "sh.exe".toList (jsLower (a.name.getD "")) = true)) ∨
      text = JsText.missing ∨ text = JsText.nonString ∨
      (∃ s, text = JsText.str s ∧ (jsTrim s).length = 0) ∨
      (∃ s, text = JsText.str s ∧ MAX_PROMPT_LENGTH < (jsTrim s).length)) →
      ∃ msg, sendPromptHandler agent text = PromptResult.reject msg) ∧
    (∀ a s, agent = some a → text = JsText.str s →
      a.status ≠ Status.terminated →
      hasSubstr "bash".toList (jsLower (a.name.getD "")) = false →
      hasSubstr "sh.exe".toList (jsLower (a.name.getD "")) = false →
      (jsTrim s).length ≠ 0 →
      (jsTrim s).length ≤ MAX_PROMPT_LENGTH →
      sendPromptHandler agent text = PromptResult.inject (jsTrim s)) := by
  constructor
  · intro h
    rcases h with h | ⟨a, rfl, hterm⟩ | ⟨a, rfl, hbash⟩ | h | h | ⟨s, rfl, hs⟩ | ⟨s, rfl, hs⟩
    · subst h; exact ⟨"Agent not found", rfl⟩
    · exact ⟨"Agent is terminated", by
        simp only [sendPromptHandler]; rw [if_pos hterm]⟩
    · by_cases hst : a.status = Status.terminated
      · exact ⟨"Agent is terminated", by
          simp only [sendPromptHandler]; rw [if_pos hst]⟩
      · have hc : (hasSubstr "bash".toList (jsLower (a.name.getD "")) ||
            hasSubstr "sh.exe".toList (jsLower (a.name.getD ""))) = true := by
          rcases hbash with hb | hb
          · rw [hb, Bool.true_or]
          · rw [hb, Bool.or_true]
        exact ⟨"Cannot inject into shell subprocess", by
          simp only [sendPromptHandler]; rw [if_neg hst, if_pos hc]⟩
    · subst h
      cases agent with
      | none => exact ⟨"Agent not found", rfl⟩
      | some a =>
        by_cases hst : a.status = Status.terminated
        · exact ⟨"Agent is terminated", by
            simp only [sendPromptHandler]; rw [if_pos hst]⟩
        · by_cases hc : (hasSubstr "bash".toList (jsLower (a.name.getD "")) ||
              hasSubstr "sh.exe".toList (jsLower (a.name.getD ""))) = true
          · exact ⟨"Cannot inject into shell subprocess", by
              simp only [sendPromptHandler]; rw [if_neg hst, if_pos hc]⟩
          · exact ⟨"Text is required", by
              simp only [sendPromptHandler]; rw [if_neg hst, if_neg hc]⟩
    · subst h
      cases agent with
      | none => exact ⟨"Agent not found", rfl⟩
      | some a =>
        by_cases hst : a.status = Status.terminated
        · exact ⟨"Agent is terminated", by
            simp only [sendPromptHandler]; rw [if_pos hst]⟩
        · by_cases hc : (hasSubstr "bash".toList (jsLower (a.name.getD "")) ||
              hasSubstr "sh.exe".toList (jsLower (a.name.getD ""))) = true
          · exact ⟨"Cannot inject into shell subprocess", by
              simp only [sendPromptHandler]; rw [if_neg hst, if_pos hc]⟩
          · exact ⟨"Text is required", by
              simp only [sendPromptHandler]; rw [if_neg hst, if_neg hc]⟩
    · cases agent with
      | none => exact ⟨"Agent not found", rfl⟩
      | some a =>
        by_cases hst : a.status = Status.terminated
        · exact ⟨"Agent is terminated", by
            simp only [sendPromptHandler]; rw [if_pos hst]⟩
        · by_cases hc : (hasSubstr "bash".toList (jsLower (a.name.getD "")) ||
              hasSubstr "sh.exe".toList (jsLower (a.name.getD ""))) = true
          · exact ⟨"Cannot inject into shell subprocess", by
              simp only [sendPromptHandler]; rw [if_neg hst, if_pos hc]⟩
          · by_cases hs0 : s = ""
            · exact ⟨"Text is required", by
                simp only [sendPromptHandler]; rw [if_neg hst, if_neg hc, if_pos hs0]⟩
            · exact ⟨"Text is empty", by
                simp only [sendPromptHandler]; rw [if_neg hst, if_neg hc, if_neg hs0, if_pos hs]⟩
    · cases agent with
      | none => exact ⟨"Agent not found", rfl⟩
      | some a =>
        by_cases hst : a.status = Status.terminated
        · exact ⟨"Agent is terminated", by
            simp only [sendPromptHandler]; rw [if_pos hst]⟩
        · by_cases hc : (hasSubstr "bash".toList (jsLower (a.name.getD "")) ||
              hasSubstr "sh.exe".toList (jsLower (a.name.getD ""))) = true
          · exact ⟨"Cannot inject into shell subprocess", by
              simp only [sendPromptHandler]; rw [if_neg hst, if_pos hc]⟩
          · have hs0 : ¬(s = "") := by
              intro h0
              subst h0
              simp [jsTrim] at hs
            have hsne : ¬((jsTrim s).length = 0) := by omega
            exact ⟨"Text exceeds maximum length", by
              simp only [sendPromptHandler]
              rw [if_neg hst, if_neg hc, if_neg hs0, if_neg hsne, if_pos hs]⟩
  · intro a s ha ht hterm hb1 hb2 hlen0 hlenMax
    subst ha; subst ht
    have hc : ¬((hasSubstr "bash".toList (jsLower (a.name.getD "")) ||
        hasSubstr "sh.exe".toList (jsLower (a.name.getD ""))) = true) := by
      rw [hb1, hb2]
      simp
    have hs0 : ¬(s = "") := by
      intro h0
      subst h0
      simp [jsTrim] at hlen0
    simp only [sendPromptHandler]
    rw [if_neg hterm, if_neg hc, if_neg hs0, if_neg hlen0,
      if_neg (Nat.not_lt.mpr hlenMax)]

/-- Witness for C10: a live `claude.exe` agent with text `" hi "` passes the
checks and the injector receives the trimmed text, while a missing agent is
rejected. -/
theorem send_prompt_rejects_invalid_witness :
    (some clInfo = some clInfo ∧
     clInfo.status ≠ Status.terminated ∧
     hasSubstr "bash".toList (jsLower (clInfo.name.getD "")) = false ∧
     hasSubstr "sh.exe".toList (jsLower (clInfo.name.getD "")) = false ∧
     (jsTrim " hi ").length ≠ 0 ∧
     (jsTrim " hi ").length ≤ MAX_PROMPT_LENGTH ∧
     sendPromptHandler (some clInfo) (JsText.str " hi ") =
       PromptResult.inject (jsTrim " hi ")) ∧
    ∃ msg, sendPromptHandler none (JsText.str " hi ") = PromptResult.reject msg := by
  refine ⟨⟨rfl, by decide, by decide, by decide, by decide, by decide, ?_⟩, ?_⟩
  · exact (send_prompt_rejects_invalid (some clInfo) (JsText.str " hi ")).2
      clInfo " hi " rfl rfl (by decide) (by decide) (by decide) (by decide) (by decide)
  · exact (send_prompt_rejects_invalid none (JsText.str " hi ")).1 (Or.inl rfl)

/-! ## C1: watchdog failure counting and loop restart (modelled from the
spec; the implementation is missing from the monitor source, which only
declares its configuration and consumes its notification) -/

/-- C1: the tick guard always returns (the exception never propagates to the
interval scheduler) and increments the consecutive-failure counter on a
failed tick; when the counter reaches `WATCHDOG_MAX_FAILURES` the Monitor
emits the degraded notification and cancels the recurring-tick timer, and
below the threshold it emits nothing; after the configured restart delay,
if still running, the counter is reset and recurring ticks are rescheduled
together with one immediate tick, while a stopped Monitor is left
untouched. -/
theorem watchdog_degraded_and_restart (s : WatchdogState) (raised : Bool) :
    (∃ s2 evs, tickGuard s raised = (s2, evs)) ∧
    ((tickGuard s true).1.failures = s.failures + 1) ∧
    (WATCHDOG_MAX_FAILURES ≤ s.failures + 1 →
      (tickGuard s true).2 =
        [MonitorEvent.degraded (s.failures + 1), MonitorEvent.pollTimerCancelled] ∧
      (tickGuard s true).1.pollTimerActive = false) ∧
    (s.failures + 1 < WATCHDOG_MAX_FAILURES →
      (tickGuard s true).2 = [] ∧
      (tickGuard s true).1.pollTimerActive = s.pollTimerActive) ∧
    (s.running = true →
      afterRestartDelay s =
        ({ s with failures := 0, pollTimerActive := true },
         [MonitorEvent.pollTimerRescheduled, MonitorEvent.immediateTick])) ∧
    (s.running = false → afterRestartDelay s = (s, [])) := by
  refine ⟨⟨_, _, rfl⟩, ?_, ?_, ?_, ?_, ?_⟩
  · by_cases h : WATCHDOG_MAX_FAILURES ≤ s.failures + 1 <;>
      simp [tickGuard, h]
  · intro h
    constructor <;> simp [tickGuard, h]
  · intro h
    have h2 : ¬ WATCHDOG_MAX_FAILURES ≤ s.failures + 1 := by omega
    constructor <;> simp [tickGuard, h2]
  · intro h
    simp [afterRestartDelay, h]
  · intro h
    simp [afterRestartDelay, h]

/-- Witness for C1: a running Monitor at four prior consecutive failures
whose fifth tick raises reaches the threshold, emits the degraded
notification, cancels the timer, and after the delay reschedules with the
counter reset. -/
theorem watchdog_degraded_and_restart_witness :
    (tickGuard ⟨true, 4, true⟩ true).1.failures = 5 ∧
    WATCHDOG_MAX_FAILURES ≤ 4 + 1 ∧
    (tickGuard ⟨true, 4, true⟩ true).2 =
      [MonitorEvent.degraded 5, MonitorEvent.pollTimerCancelled] ∧
    afterRestartDelay ⟨true, 5, false⟩ =
      (⟨true, 0, true⟩,
       [MonitorEvent.pollTimerRescheduled, MonitorEvent.immediateTick]) := by
  refine ⟨?_, by decide, ?_, ?_⟩
  · exact (watchdog_degraded_and_restart ⟨true, 4, true⟩ true).2.1
  · exact ((watchdog_degraded_and_restart ⟨true, 4, true⟩ true).2.2.1 (by decide)).1
  · exact (watchdog_degraded_and_restart ⟨true, 5, false⟩ true).2.2.2.2.1 rfl

/-! ## C8: tag operations (modelled from the spec; the Monitor's tag methods
are missing from the monitor source, which only has their agentBridge and
IPC callers) -/

/-- C8: the four tag operations act on the per-pid tag map only — the agent
registry, which the scan cycles own, is never touched — and for a pid with
no tag entry, `addAgentTag` lazily creates the set and inserts the tag
rather than erroring, while `removeAgentTag` lazily creates the set and is
an observational no-op: every pid reads the same tags before and after. -/
theorem tag_ops_independent_and_total (s : TagState) (pid : Nat) (tag : String)
    (v : List String) :
    ((setAgentTags s pid v).agents = s.agents ∧
     (addAgentTag s pid tag).agents = s.agents ∧
     (removeAgentTag s pid tag).agents = s.agents) ∧
    (tagsGet s.tags pid = none →
      getAgentTags (addAgentTag s pid tag) pid = [tag] ∧
      (∀ q, getAgentTags (removeAgentTag s pid tag) q = getAgentTags s q)) := by
  constructor
  · exact ⟨rfl, rfl, rfl⟩
  · intro hnone
    have hany : s.tags.any (fun kv => kv.1 == pid) = false := by
      rcases hfind : s.tags.find? (fun kv => kv.1 == pid) with _ | kv
      · rw [List.any_eq_false]
        intro kv hkv
        intro hbeq
        have := List.find?_eq_none.mp hfind kv hkv
        exact this hbeq
      · rw [tagsGet, hfind] at hnone
        simp at hnone
    constructor
    · rw [getAgentTags, addAgentTag]
      simp only [hnone, Option.getD_none, List.contains, List.elem_nil,
        List.not_mem_nil]
      rw [tagsSet, if_neg (by rw [hany]; exact Bool.false_ne_true)]
      rw [tagsGet, List.find?_append]
      have hfind : s.tags.find? (fun kv => kv.1 == pid) = none := by
        rw [List.find?_eq_none]
        intro kv hkv
        intro hbeq
        rw [List.any_eq_false] at hany
        exact hany kv hkv hbeq
      rw [hfind]
      simp
    · intro q
      rw [getAgentTags, removeAgentTag]
      simp only [hnone, Option.getD_none, List.filter_nil]
      rw [tagsSet, if_neg (by rw [hany]; exact Bool.false_ne_true)]
      rw [getAgentTags, tagsGet, tagsGet, List.find?_append]
      rcases hq : s.tags.find? (fun kv => kv.1 == q) with _ | kv
      · simp only [hq, Option.none_or]
        rcases hpq : (pid == q : Bool) with _ | _
        · simp [List.find?, hpq]
        · have : pid = q := by simpa using hpq
          subst this
          have hfind : s.tags.find? (fun kv => kv.1 == pid) = none := by
            rw [List.find?_eq_none]
            intro kv hkv
            intro hbeq
            rw [List.any_eq_false] at hany
            exact hany kv hkv hbeq
          simp [List.find?, hq]
      · simp [hq]

/-- Witness for C8: with an empty tag map, pid 5 has no entry; adding a tag
lazily creates its set, and removing from an unknown pid leaves every read
unchanged. -/
theorem tag_ops_independent_and_total_witness :
    tagsGet ([] : List (Nat × List String)) 5 = none ∧
    getAgentTags (addAgentTag ⟨[], []⟩ 5 "t") 5 = ["t"] ∧
    getAgentTags (removeAgentTag ⟨[], []⟩ 5 "t") 5 = getAgentTags ⟨[], []⟩ 5 := by
  refine ⟨rfl, ?_, ?_⟩
  · exact ((tag_ops_independent_and_total ⟨[], []⟩ 5 "t" []).2 rfl).1
  · exact ((tag_ops_independent_and_total ⟨[], []⟩ 5 "t" []).2 rfl).2 5

/-! ## C2: classification of a last assistant record -/

/-- An `AskUserQuestion` tool_use content block, used as a concrete input. -/
def askUserBlock : ContentBlock :=
  { btype := "tool_use", name := some "AskUserQuestion" }

/-- An assistant record carrying an `AskUserQuestion` tool_use at timestamp
0, used as a concrete input. -/
def askUserRecord : LogRecord :=
  { rtype := some "assistant", timestamp := some 0, content := some [askUserBlock] }

/-- A live correlated agent whose last buffered record is `askUserRecord`,
used as a concrete input. -/
def agAskUser : AgentSnap :=
  { status := Status.active, logLines := [askUserRecord], sessionId := some "s",
    lastSeen := 0 }

/-- Counterexample to C2: a non-terminated agent whose last record is an
assistant message with an `AskUserQuestion` tool_use block is classified
`running`, not `waiting_input`, at 2 seconds of silence — the code only
reaches the tool_use inspection when silence exceeds 5 seconds, so the
claim's unconditional `waiting_input` for `AskUserQuestion` is false. -/
theorem ask_user_short_silence_counterexample :
    agAskUser.status ≠ Status.terminated ∧
    agAskUser.logLines.getLast? = some askUserRecord ∧
    askUserRecord.rtype = some "assistant" ∧
    (getToolUseBlocks askUserRecord).any
      (fun t => t.name == some "AskUserQuestion") = true ∧
    deriveAttentionState 2000 agAskUser = "running" ∧
    ("running" : String) ≠ "waiting_input" := by
  exact ⟨by decide, rfl, rfl, by decide, by decide, by decide⟩

/-- C2 (amended): for a non-terminated agent whose last buffered record has
type `assistant`, when silence exceeds 5 seconds the state is
`waiting_input` if any tool_use block is named `AskUserQuestion`,
`waiting_permission` if any other tool_use block is present, and
`waiting_input` (not `inactive`) for end-of-turn text with no tool_use;
when silence is at most 5 seconds the state is `running` in all three
cases. -/
theorem assistant_classification (now : Int) (agent : AgentSnap) (l : LogRecord)
    (hstat : agent.status ≠ Status.terminated)
    (hlast : agent.logLines.getLast? = some l)
    (htype : l.rtype = some "assistant") :
    (5000 < now - l.timestamp.getD agent.lastSeen →
      ((getToolUseBlocks l).any (fun t => t.name == some "AskUserQuestion") = true →
        deriveAttentionState now agent = "waiting_input") ∧
      ((getToolUseBlocks l).any (fun t => t.name == some "AskUserQuestion") = false →
        getToolUseBlocks l ≠ [] →
        deriveAttentionState now agent = "waiting_permission") ∧
      (getToolUseBlocks l = [] →
        deriveAttentionState now agent = "waiting_input")) ∧
    (now - l.timestamp.getD agent.lastSeen ≤ 5000 →
      deriveAttentionState now agent = "running") := by
  constructor
  · intro h5
    have hcond : (l.rtype == some "assistant" &&
        decide (now - l.timestamp.getD agent.lastSeen > 5000)) = true := by
      rw [htype]
      simp [h5]
    refine ⟨?_, ?_, ?_⟩
    · intro hask
      simp only [deriveAttentionState, hlast]
      rw [if_neg hstat, if_pos hcond, if_pos hask]
    · intro hask hne
      simp only [deriveAttentionState, hlast]
      rw [if_neg hstat, if_pos hcond,
        if_neg (by rw [hask]; exact Bool.false_ne_true),
        if_pos (List.length_pos.mpr hne)]
    · intro hempty
      simp only [deriveAttentionState, hlast]
      rw [if_neg hstat, if_pos hcond]
      rw [hempty]
      simp
  · intro h5
    have hcond : ¬((l.rtype == some "assistant" &&
        decide (now - l.timestamp.getD agent.lastSeen > 5000)) = true) := by
      simp only [Bool.and_eq_true, decide_eq_true_eq, not_and]
      intro _
      omega
    have h60 : ¬(now - l.timestamp.getD agent.lastSeen > 60000) := by omega
    simp only [deriveAttentionState, hlast]
    rw [if_neg hstat, if_neg hcond, if_neg h60]

/-- Witness for C2 (amended): the `AskUserQuestion` agent at 6 seconds of
silence is classified `waiting_input`. -/
theorem assistant_classification_witness :
    agAskUser.status ≠ Status.terminated ∧
    agAskUser.logLines.getLast? = some askUserRecord ∧
    askUserRecord.rtype = some "assistant" ∧
    5000 < (6000 : Int) - askUserRecord.timestamp.getD agAskUser.lastSeen ∧
    deriveAttentionState 6000 agAskUser = "waiting_input" := by
  refine ⟨by decide, rfl, rfl, by decide, ?_⟩
  exact ((assistant_classification 6000 agAskUser askUserRecord
    (by decide) rfl rfl).1 (by decide)).1 (by decide)

/-! ## C3: classification of a last user or other-typed record -/

/-- A user record at timestamp 0, used as a concrete input. -/
def userRecord : LogRecord :=
  { rtype := some "user", timestamp := some 0, content := none }

/-- A live correlated agent whose last buffered record is `userRecord`, used
as a concrete input. -/
def agUserRec : AgentSnap :=
  { status := Status.active, logLines := [userRecord], sessionId := some "s",
    lastSeen := 0 }

/-- Counterexample to C3: a non-terminated agent whose last record has type
`user` is classified `stalled` at 70 seconds of silence — the code applies a
60-second stall threshold to every non-assistant record type, so neither the
claim's `running`-regardless-of-silence for user records nor its 300-second
threshold for other types holds. -/
theorem user_record_long_silence_counterexample :
    agUserRec.status ≠ Status.terminated ∧
    agUserRec.logLines.getLast? = some userRecord ∧
    userRecord.rtype = some "user" ∧
    deriveAttentionState 70000 agUserRec = "stalled" ∧
    ("stalled" : String) ≠ "running" := by
  exact ⟨by decide, rfl, rfl, by decide, by decide⟩

/-- C3 (amended): for a non-terminated agent whose last buffered record has
any type other than `assistant` — including `user` — the state is `stalled`
when silence exceeds 60 seconds (not 300) and `running` otherwise; user
records get no special treatment. -/
theorem non_assistant_classification (now : Int) (agent : AgentSnap) (l : LogRecord)
    (hstat : agent.status ≠ Status.terminated)
    (hlast : agent.logLines.getLast? = some l)
    (htype : l.rtype ≠ some "assistant") :
    (60000 < now - l.timestamp.getD agent.lastSeen →
      deriveAttentionState now agent = "stalled") ∧
    (now - l.timestamp.getD agent.lastSeen ≤ 60000 →
      deriveAttentionState now agent = "running") := by
  have hcond : ¬((l.rtype == some "assistant" &&
      decide (now - l.timestamp.getD agent.lastSeen > 5000)) = true) := by
    simp only [Bool.and_eq_true, beq_iff_eq, not_and]
    intro h
    exact absurd h htype
  constructor
  · intro h60
    simp only [deriveAttentionState, hlast]
    rw [if_neg hstat, if_neg hcond, if_pos h60]
  · intro h60
    simp only [deriveAttentionState, hlast]
    rw [if_neg hstat, if_neg hcond, if_neg (by omega)]

/-- Witness for C3 (amended): the user-record agent at 70 seconds of silence
is classified `stalled`, and at 30 seconds `running`. -/
theorem non_assistant_classification_witness :
    agUserRec.status ≠ Status.terminated ∧
    agUserRec.logLines.getLast? = some userRecord ∧
    userRecord.rtype ≠ some "assistant" ∧
    60000 < (70000 : Int) - userRecord.timestamp.getD agUserRec.lastSeen ∧
    deriveAttentionState 70000 agUserRec = "stalled" ∧
    deriveAttentionState 30000 agUserRec = "running" := by
  refine ⟨by decide, rfl, by decide, by decide, ?_, ?_⟩
  · exact (non_assistant_classification 70000 agUserRec userRecord
      (by decide) rfl (by decide)).1 (by decide)
  · exact (non_assistant_classification 30000 agUserRec userRecord
      (by decide) rfl (by decide)).2 (by decide)

/-! ## C4: status monotonicity across ticks -/

/-- A tick iteration for a scanned pid other than `p` cannot create or alter
entries keyed `p`. -/
theorem tickStep_mem_of_ne (now : Int) (r : List AgentR) (q p : Nat) (hqp : q ≠ p)
    (a : AgentR) (ha : a ∈ tickStep now r q) (hpid : a.pid = p) : a ∈ r := by
  unfold tickStep at ha
  by_cases hc : r.any (fun a => a.pid == q) = true
  · rw [if_pos hc] at ha
    obtain ⟨a0, ha0, heq⟩ := List.mem_map.mp ha
    by_cases h0 : a0.pid = q
    · rw [if_pos (by simp [h0])] at heq
      rw [← heq] at hpid
      simp at hpid
      exact absurd (h0 ▸ hpid) hqp
    · rw [if_neg (by simp [h0])] at heq
      exact heq ▸ ha0
  · rw [if_neg hc] at ha
    rcases List.mem_append.mp ha with h | h
    · exact h
    · rw [List.mem_singleton] at h
      rw [h] at hpid
      exact absurd hpid (by simpa [newAgent] using hqp.symm ∘ Eq.symm)

/-- Entries keyed `p` are untouched by a tick's added/refresh loop when `p`
is not in the scan. -/
theorem tickPhase1_mem_of_not_mem (now : Int) (p : Nat) :
    ∀ (scanned : List Nat) (reg : List AgentR), p ∉ scanned →
      ∀ a ∈ tickPhase1 now reg scanned, a.pid = p → a ∈ reg := by
  intro scanned
  induction scanned with
  | nil => intro reg _ a ha _; exact ha
  | cons q rest ih =>
    intro reg hp a ha hpid
    have hq : q ≠ p := fun h => hp (h ▸ List.mem_cons_self q rest)
    have hrest : p ∉ rest := fun h => hp (List.mem_cons_of_mem q h)
    have hmem := ih (tickStep now reg q) hrest a ha hpid
    exact tickStep_mem_of_ne now reg q p hq a hmem hpid

/-- A tick iteration preserves the invariant that every entry keyed `p` is
active. -/
theorem tickStep_active_preserved (now : Int) (r : List AgentR) (q p : Nat)
    (hinv : ∀ a ∈ r, a.pid = p → a.status = Status.active) :
    ∀ a ∈ tickStep now r q, a.pid = p → a.status = Status.active := by
  intro a ha hpid
  unfold tickStep at ha
  by_cases hc : r.any (fun a => a.pid == q) = true
  · rw [if_pos hc] at ha
    obtain ⟨a0, ha0, heq⟩ := List.mem_map.mp ha
    by_cases h0 : a0.pid = q
    · rw [if_pos (by simp [h0])] at heq
      rw [← heq]
    · rw [if_neg (by simp [h0])] at heq
      exact heq ▸ hinv a0 ha0 (heq ▸ hpid)
  · rw [if_neg hc] at ha
    rcases List.mem_append.mp ha with h | h
    · exact hinv a h hpid
    · rw [List.mem_singleton] at h
      rw [h]
      rfl

/-- The added/refresh loop preserves the all-active invariant for a key. -/
theorem tickPhase1_active_of_inv (now : Int) (p : Nat) :
    ∀ (scanned : List Nat) (reg : List AgentR),
      (∀ a ∈ reg, a.pid = p → a.status = Status.active) →
      ∀ a ∈ tickPhase1 now reg scanned, a.pid = p → a.status = Status.active := by
  intro scanned
  induction scanned with
  | nil => intro reg hinv a ha hpid; exact hinv a ha hpid
  | cons q rest ih =>
    intro reg hinv a ha hpid
    exact ih (tickStep now reg q) (tickStep_active_preserved now reg q p hinv) a ha hpid

/-- After the tick iteration for pid `p` itself, every entry keyed `p` is
active: a present entry is forced active, an absent one is inserted
active. -/
theorem tickStep_active_self (now : Int) (r : List AgentR) (p : Nat) :
    ∀ a ∈ tickStep now r p, a.pid = p → a.status = Status.active := by
  intro a ha hpid
  unfold tickStep at ha
  by_cases hc : r.any (fun a => a.pid == p) = true
  · rw [if_pos hc] at ha
    obtain ⟨a0, ha0, heq⟩ := List.mem_map.mp ha
    by_cases h0 : a0.pid = p
    · rw [if_pos (by simp [h0])] at heq
      rw [← heq]
    · rw [if_neg (by simp [h0])] at heq
      exact absurd (heq ▸ hpid) h0
  · rw [if_neg hc] at ha
    rcases List.mem_append.mp ha with h | h
    · simp only [Bool.not_eq_true] at hc
      rw [List.any_eq_false] at hc
      exact absurd (by simp [hpid]) (hc a h)
    · rw [List.mem_singleton] at h
      rw [h]
      rfl

/-- After the whole added/refresh loop, every entry keyed by a scanned pid is
active. -/
theorem tickPhase1_active_of_mem (now : Int) (p : Nat) :
    ∀ (scanned : List Nat) (reg : List AgentR), p ∈ scanned →
      ∀ a ∈ tickPhase1 now reg scanned, a.pid = p → a.status = Status.active := by
  intro scanned
  induction scanned with
  | nil => intro reg hp; exact absurd hp (List.not_mem_nil p)
  | cons q rest ih =>
    intro reg hp a ha hpid
    rcases List.mem_cons.mp hp with hq | hrest
    · subst hq
      exact tickPhase1_active_of_inv now p rest (tickStep now reg p)
        (tickStep_active_self now reg p) a ha hpid
    · exact ih (tickStep now reg q) hrest a ha hpid

/-- The removed loop's per-agent body preserves the pid. -/
theorem markRemoved_pid (now : Int) (scanned : List Nat) (a : AgentR) :
    (markRemoved now scanned a).pid = a.pid := by
  unfold markRemoved
  split_ifs <;> rfl

/-- A registry in which every entry for pid 7 is terminated, obtained by
detecting pid 7 at time 1 and scanning it away at time 2. -/
def regAfterLoss : List AgentR :=
  tickUpdate 2 (tickUpdate 1 [] [7]) []

/-- Counterexample to C4: after pid 7 is detected (tick at time 1) and
disappears from the scan (tick at time 2), its entry is terminated; a third
tick at time 3 whose scan reports pid 7 again — without the agent being
pruned — forces the same entry back to `active`, so the transition does
reverse within a single Monitor lifetime. -/
theorem terminated_back_to_active_counterexample :
    regGet regAfterLoss 7 =
      some { pid := 7, status := Status.terminated, lastSeen := 1,
             terminatedAt := some 2 } ∧
    regGet (tickUpdate 3 regAfterLoss [7]) 7 =
      some { pid := 7, status := Status.active, lastSeen := 3,
             terminatedAt := some 2 } := by
  exact ⟨by decide, by decide⟩

/-- C4 (amended): an agent's `active → terminated` transition is monotone as
long as its pid stays out of subsequent scans — a tick never reactivates a
terminated entry whose pid the scanner does not report — but a tick whose
scan does report a terminated entry's pid unconditionally forces that entry
back to `active`, without the agent being pruned and re-detected. -/
theorem status_monotone_unless_rescanned (now : Int) (reg : List AgentR)
    (scanned : List Nat) (p : Nat) :
    ((∀ a ∈ reg, a.pid = p → a.status = Status.terminated) → p ∉ scanned →
      ∀ a ∈ tickUpdate now reg scanned, a.pid = p → a.status = Status.terminated) ∧
    (p ∈ scanned →
      ∀ a ∈ tickUpdate now reg scanned, a.pid = p → a.status = Status.active) := by
  constructor
  · intro hterm hp a ha hpid
    unfold tickUpdate tickPhase2 at ha
    obtain ⟨a0, ha0, heq⟩ := List.mem_map.mp ha
    have hpid0 : a0.pid = p := by
      rw [← heq, markRemoved_pid] at hpid
      exact hpid
    have hmem0 : a0 ∈ reg :=
      tickPhase1_mem_of_not_mem now p scanned reg hp a0 ha0 hpid0
    have hst0 : a0.status = Status.terminated := hterm a0 hmem0 hpid0
    rw [← heq]
    unfold markRemoved
    rw [if_pos hst0]
    exact hst0
  · intro hp a ha hpid
    unfold tickUpdate tickPhase2 at ha
    obtain ⟨a0, ha0, heq⟩ := List.mem_map.mp ha
    have hpid0 : a0.pid = p := by
      rw [← heq, markRemoved_pid] at hpid
      exact hpid
    have hact : a0.status = Status.active :=
      tickPhase1_active_of_mem now p scanned reg hp a0 ha0 hpid0
    have hnterm : ¬(a0.status = Status.terminated) := by
      rw [hact]
      intro h
      exact Status.noConfusion h
    have hcont : scanned.contains a0.pid = true := by
      rw [hpid0]
      exact List.elem_iff.mpr hp
    rw [← heq]
    unfold markRemoved
    rw [if_neg hnterm, if_pos hcont]
    exact hact

/-- Witness for C4 (amended): with the terminated-pid-7 registry, a tick
scanning `[9]` keeps pid 7 terminated, and a tick scanning `[7]` forces it
active. -/
theorem status_monotone_unless_rescanned_witness :
    (∀ a ∈ regAfterLoss, a.pid = 7 → a.status = Status.terminated) ∧
    (7 : Nat) ∉ [(9 : Nat)] ∧
    (∀ a ∈ tickUpdate 3 regAfterLoss [9], a.pid = 7 →
      a.status = Status.terminated) ∧
    (7 : Nat) ∈ [(7 : Nat)] ∧
    (∀ a ∈ tickUpdate 3 regAfterLoss [7], a.pid = 7 →
      a.status = Status.active) := by
  refine ⟨by decide, by decide, ?_, by decide, ?_⟩
  · exact (status_monotone_unless_rescanned 3 regAfterLoss [9] 7).1
      (by decide) (by decide)
  · exact (status_monotone_unless_rescanned 3 regAfterLoss [7] 7).2 (by decide)

/-! ## C5: session correlation acceptance and fallback -/

/-- A candidate session whose last JSON line is well-formed but carries no
`timestamp` field, with a recent modification time; used as a concrete
input. -/
def sessNoTs : SessionC :=
  { sessionId := "a", lastModified := 940000,
    tail := some { rtype := none, timestamp := none, content := none } }

/-- A less recently modified candidate whose last JSON line has a fresh
`timestamp` field; used as a concrete input. -/
def sessFreshTs : SessionC :=
  { sessionId := "b", lastModified := 880000,
    tail := some { rtype := none, timestamp := some 999000, content := none } }

/-- An agent started at epoch ms 940000, used as a concrete input. -/
def agStarted : AgentStart := { startTime := some 940000 }

/-- Counterexample to C5: at time 1000000 with candidates
`[sessNoTs, sessFreshTs]` (most-recently-modified first), the code accepts
and returns `sessNoTs`, whose last well-formed JSON line has no `timestamp`
field at all (its recent file-modification time is substituted), rather than
skipping it and returning `sessFreshTs`, the first candidate whose tail
actually has a `timestamp` within 5 minutes of now — which is what the claim
as stated requires. -/
theorem correlate_missing_timestamp_counterexample :
    claimAccepted 1000000 sessNoTs = false ∧
    claimAccepted 1000000 sessFreshTs = true ∧
    candidateAccepted 1000000 sessNoTs = true ∧
    correlateAgentSession 1000000 agStarted [sessNoTs, sessFreshTs] = some sessNoTs ∧
    correlateClaim 1000000 agStarted [sessNoTs, sessFreshTs] = some sessFreshTs ∧
    sessNoTs ≠ sessFreshTs := by
  exact ⟨by decide, by decide, by decide, by decide, by decide, by decide⟩

/-- C5 (amended): `correlateAgentSession` returns none for an agent with no
recorded start time; whenever it returns a candidate, that candidate is one
of the filtered candidates and either it is the first candidate (in
most-recently-modified-first input order) whose last well-formed JSON line
has an effective time — its `timestamp` field if present, otherwise the
file's modification time — within 5 minutes of now, every earlier candidate
failing that test, or no candidate passes the test and the result is the
fallback: the first (most-recently-modified) candidate. -/
theorem correlate_first_accepted_or_fallback (now : Int) (agent : AgentStart)
    (sessions : List SessionC) :
    (agent.startTime = none → correlateAgentSession now agent sessions = none) ∧
    (∀ c, correlateAgentSession now agent sessions = some c →
      ∃ st, agent.startTime = some st ∧
        c ∈ correlationCandidates now st sessions ∧
        ((candidateAccepted now c = true ∧
          ∃ pre suf, correlationCandidates now st sessions = pre ++ c :: suf ∧
            ∀ b ∈ pre, candidateAccepted now b = false) ∨
         ((correlationCandidates now st sessions).head? = some c ∧
          ∀ b ∈ correlationCandidates now st sessions,
            candidateAccepted now b = false))) := by
  constructor
  · intro h
    simp [correlateAgentSession, h]
  · intro c hc
    cases hst : agent.startTime with
    | none => simp [correlateAgentSession, hst] at hc
    | some st =>
      refine ⟨st, rfl, ?_⟩
      simp only [correlateAgentSession, hst] at hc
      by_cases hemp : (correlationCandidates now st sessions).isEmpty
      · rw [if_pos hemp] at hc
        exact absurd hc (by simp)
      · rw [if_neg hemp] at hc
        rcases hfind : (correlationCandidates now st sessions).find?
            (candidateAccepted now) with _ | c0
        · rw [hfind] at hc
          have hmem : c ∈ correlationCandidates now st sessions :=
            List.mem_of_mem_head? hc
          refine ⟨hmem, Or.inr ⟨hc, ?_⟩⟩
          intro b hb
          have hnb := List.find?_eq_none.mp hfind b hb
          simpa using hnb
        · rw [hfind] at hc
          have hceq : c0 = c := by injection hc
          rw [hceq] at hfind
          have hmem : c ∈ correlationCandidates now st sessions :=
            List.mem_of_find?_eq_some hfind
          have hacc : candidateAccepted now c = true := List.find?_some hfind
          obtain ⟨pre, suf, heq, hall⟩ :=
            find_first_split (candidateAccepted now) _ c hfind
          exact ⟨hmem, Or.inl ⟨hacc, pre, suf, heq, hall⟩⟩

/-- Witness for C5 (amended): an agent without a start time correlates to
none, and the concrete two-candidate run returns a member of the candidate
list satisfying the acceptance-or-fallback disjunction. -/
theorem correlate_first_accepted_or_fallback_witness :
    (AgentStart.mk none).startTime = none ∧
    correlateAgentSession 1000000 (AgentStart.mk none) [sessNoTs] = none ∧
    correlateAgentSession 1000000 agStarted [sessNoTs, sessFreshTs] =
      some sessNoTs ∧
    ∃ st, agStarted.startTime = some st ∧
      sessNoTs ∈ correlationCandidates 1000000 st [sessNoTs, sessFreshTs] ∧
      ((candidateAccepted 1000000 sessNoTs = true ∧
        ∃ pre suf, correlationCandidates 1000000 st [sessNoTs, sessFreshTs] =
            pre ++ sessNoTs :: suf ∧
          ∀ b ∈ pre, candidateAccepted 1000000 b = false) ∨
       ((correlationCandidates 1000000 st [sessNoTs, sessFreshTs]).head? =
          some sessNoTs ∧
        ∀ b ∈ correlationCandidates 1000000 st [sessNoTs, sessFreshTs],
          candidateAccepted 1000000 b = false)) := by
  refine ⟨rfl, ?_, by decide, ?_⟩
  · exact (correlate_first_accepted_or_fallback 1000000 (AgentStart.mk none)
      [sessNoTs]).1 rfl
  · exact (correlate_first_accepted_or_fallback 1000000 agStarted
      [sessNoTs, sessFreshTs]).2 sessNoTs (by decide)

end ClaudeCount
